import Mathlib

/-!
Verification of the schema-resolution engine of `typedorm`
(`src/packages/core/src/classes/transformer/base-transformer.ts`).

The development shallowly embeds the transformer:

* JavaScript objects are ordered association lists `List (String × Value)`;
  reading a missing key yields `Value.undef`, assignment overwrites in place
  or appends, and object spread is a left fold of assignments.
* Key templates arrive pre-parsed (the spec declares textual parsing of the
  template micro-language out of scope), as alternating literal/placeholder
  parts.
* Fallible code returns `Except TError`; a thrown JavaScript exception is an
  `Except.error` that aborts the enclosing computation, exactly as a thrown
  exception aborts the reduce/forEach loops of the source.
* The caller-visible mutation story of `toDynamoEntity` is captured by an
  explicit heap (`List JsObj`): object creation appends, and nothing ever
  writes to an existing cell.

Helpers of the repository that are not in the provided sources
(`helpers/parse-key`, `helpers/is-scalar-type`, `Table.getIndexByKey`,
the entity-metadata schema shapes) are modelled from the specification and
are marked as such in their doc comments.
-/

/-- Errors of the engine. `missingAttributeError` is the spec's
`MissingAttributeError` (a non-sparse template references an absent entity
attribute); `typeError` models the JavaScript `TypeError` raised when a
property of `undefined` is read. -/
inductive TError where
  | missingAttributeError : TError
  | typeError : TError
deriving DecidableEq, Repr

/-- JavaScript values as used by the engine: strings, numbers, booleans,
`undefined`, and (nested) objects. Arrays are represented through their
object view (index-keyed objects); `null` plays no role in the claims. -/
inductive Value where
  | str : String → Value
  | num : Int → Value
  | bool : Bool → Value
  | undef : Value
  | obj : List (String × Value) → Value

/-- A JavaScript object: ordered key/value entries with unique keys. -/
abbrev JsObj := List (String × Value)

/-- Reading `o[k]`: the first entry with key `k`, or `undefined`. -/
def jsGet (o : JsObj) (k : String) : Value :=
  (o.lookup k).getD Value.undef

/-- Writing `o[k] = v` (also the update step of an object literal/spread):
overwrites the value of an existing key in place, otherwise appends. -/
def objSet (o : JsObj) (k : String) (v : Value) : JsObj :=
  if o.any (fun p => p.1 = k) then
    o.map (fun p => if p.1 = k then (k, v) else p)
  else
    o ++ [(k, v)]

/-- The object spread expression: every entry of `b` assigned, in
order, onto a copy of `a`. -/
def objMerge (a b : JsObj) : JsObj :=
  b.foldl (fun acc p => objSet acc p.1 p.2) a

/-- `Object.keys` of an entry list: key of each entry, first occurrence
kept (a well-formed object has no duplicate keys anyway). -/
def dedupFirst : List String → List String
  | [] => []
  | k :: rest => k :: (dedupFirst rest).filter (fun x => x ≠ k)

/-- Whether a value is `undefined`. -/
def Value.isUndef : Value → Bool
  | Value.undef => true
  | _ => false

/-- String.prototype.includes: does `pat` occur inside `s`? (Always true for
the empty pattern, as in JavaScript.) -/
def strIncludes (s pat : String) : Bool :=
  s.data.tails.any (fun t => pat.data.isPrefixOf t)

/-- Modelled from the spec: `helpers/is-scalar-type` is not among the
provided sources. Per the spec, scalars are strings, numbers and booleans;
objects/arrays (and `undefined`) are not scalar. -/
def isScalarType : Value → Bool
  | .str _ => true
  | .num _ => true
  | .bool _ => true
  | _ => false

/-- Stringification of a value interpolated into a key template, per the
store's scalar conventions. -/
def valueToString : Value → String
  | .str s => s
  | .num n => toString n
  | .bool b => if b then "true" else "false"
  | Value.undef => "undefined"
  | .obj _ => "[object Object]"

/-- One part of a pre-parsed key template: a literal fragment or a
placeholder referencing an entity attribute. -/
inductive TemplatePart where
  | lit : String → TemplatePart
  | ref : String → TemplatePart
deriving DecidableEq, Repr

/-- A pre-parsed key template (the spec's interpolation pattern). -/
abbrev KeyTemplate := List TemplatePart

/-- The entity attribute names referenced by a template's placeholders. -/
def templateRefs : KeyTemplate → List String
  | [] => []
  | .lit _ :: rest => templateRefs rest
  | .ref a :: rest => a :: templateRefs rest

/-- Modelled from the spec: `helpers/parse-key` (the Key Template Resolver)
is not among the provided sources. Per spec section 4.1 it substitutes every
placeholder with the stringified entity attribute value; when
`isSparseIndex` is true and a referenced attribute is absent/undefined the
whole resolution signals absent (`none`, a falsy value to the caller); when
`isSparseIndex` is false an absent referenced attribute raises
`MissingAttributeError`. -/
def parseKey : KeyTemplate → JsObj → Bool → Except TError (Option String)
  | [], _, _ => .ok (some "")
  | .lit s :: rest, entity, isSparseIndex =>
    match parseKey rest entity isSparseIndex with
    | .error err => .error err
    | .ok none => .ok none
    | .ok (some r) => .ok (some (s ++ r))
  | .ref a :: rest, entity, isSparseIndex =>
    match jsGet entity a with
    | Value.undef =>
      if isSparseIndex then .ok none else .error .missingAttributeError
    | v =>
      match parseKey rest entity isSparseIndex with
      | .error err => .error err
      | .ok none => .ok none
      | .ok (some r) => .ok (some (valueToString v ++ r))

/-- A schema object as walked by `recursiveParseEntity`: an ordered list of
entries, each either a leaf key template or a nested schema object carrying
its own `isSparse` flag (spec section 3: each node may carry an `isSparse`
flag; the source probes `isObject(currentValue)` and reads
`currentValue.isSparse`, which this tagged representation makes explicit). -/
inductive SchemaObj where
  | nil : SchemaObj
  | leafEntry : String → KeyTemplate → SchemaObj → SchemaObj
  | nodeEntry : String → Bool → SchemaObj → SchemaObj → SchemaObj
deriving DecidableEq, Repr

/-- The walker's output: an ordered object whose entries are resolved
strings or nested resolved objects. -/
inductive ResolvedObj where
  | nil : ResolvedObj
  | strEntry : String → String → ResolvedObj → ResolvedObj
  | objEntry : String → ResolvedObj → ResolvedObj → ResolvedObj
deriving DecidableEq, Repr

/-- Keys of a schema object, in order. -/
def SchemaObj.keys : SchemaObj → List String
  | .nil => []
  | .leafEntry k _ rest => k :: rest.keys
  | .nodeEntry k _ _ rest => k :: rest.keys

/-- Keys of a resolved object, in order. -/
def ResolvedObj.keys : ResolvedObj → List String
  | .nil => []
  | .strEntry k _ rest => k :: rest.keys
  | .objEntry k _ rest => k :: rest.keys

/-- Does the schema object have a top-level leaf entry `key ↦ tpl`? -/
def SchemaObj.hasLeaf : SchemaObj → String → KeyTemplate → Bool
  | .nil, _, _ => false
  | .leafEntry k t rest, key, tpl =>
    (k = key && t = tpl) || rest.hasLeaf key tpl
  | .nodeEntry _ _ _ rest, key, tpl => rest.hasLeaf key tpl

/-- Does the schema object have a top-level nested entry
`key ↦ (isSparse, children)`? -/
def SchemaObj.hasNode : SchemaObj → String → Bool → SchemaObj → Bool
  | .nil, _, _, _ => false
  | .leafEntry _ _ rest, key, sp, ch => rest.hasNode key sp ch
  | .nodeEntry k s c rest, key, sp, ch =>
    (k = key && s = sp && c = ch) || rest.hasNode key sp ch

/-- Does the resolved object have a top-level string entry `key ↦ s`? -/
def ResolvedObj.hasStr : ResolvedObj → String → String → Bool
  | .nil, _, _ => false
  | .strEntry k v rest, key, s => (k = key && v = s) || rest.hasStr key s
  | .objEntry _ _ rest, key, s => rest.hasStr key s

/-- Does the resolved object have a top-level nested entry `key ↦ sub`? -/
def ResolvedObj.hasObj : ResolvedObj → String → ResolvedObj → Bool
  | .nil, _, _ => false
  | .strEntry _ _ rest, key, sub => rest.hasObj key sub
  | .objEntry k c rest, key, sub =>
    (k = key && c = sub) || rest.hasObj key sub

/-- View of a resolved object as a plain JavaScript object. -/
def ResolvedObj.toJsObj : ResolvedObj → JsObj
  | .nil => []
  | .strEntry k v rest => (k, .str v) :: rest.toJsObj
  | .objEntry k c rest => (k, .obj c.toJsObj) :: rest.toJsObj

/-- `recursiveParseEntity` (source lines 188-215): walks every entry of the
schema object in order; a nested object is walked recursively under its own
`isSparse` flag and assigned unconditionally; a leaf template is resolved by
`parseKey` under the current sparse context and assigned only when the
resolved value is truthy (`if (parsedKey)`). A thrown error aborts the
whole walk. -/
def recursiveParseEntity : SchemaObj → JsObj → Bool → Except TError ResolvedObj
  | .nil, _, _ => .ok .nil
  | .nodeEntry key sp children rest, entity, isSparse =>
    match recursiveParseEntity children entity sp with
    | .error err => .error err
    | .ok sub =>
      match recursiveParseEntity rest entity isSparse with
      | .error err => .error err
      | .ok restRes => .ok (.objEntry key sub restRes)
  | .leafEntry key tpl rest, entity, isSparse =>
    match parseKey tpl entity isSparse with
    | .error err => .error err
    | .ok parsedKey =>
      match recursiveParseEntity rest entity isSparse with
      | .error err => .error err
      | .ok restRes =>
        match parsedKey with
        | some s => if s = "" then .ok restRes else .ok (.strEntry key s restRes)
        | none => .ok restRes

/-- `INDEX_TYPE` of `@typedorm/common`: global or local secondary index. -/
inductive IndexType where
  | GSI : IndexType
  | LSI : IndexType
deriving DecidableEq, Repr

/-- A table's declared index signature: its type, its partition key name
and its sort key name (the partition key name is unused for an LSI, which
shares the table's base partition key). -/
structure IndexSignature where
  type : IndexType
  partitionKey : String
  sortKey : String
deriving DecidableEq, Repr

/-- Modelled from the spec: the `Table` class of `@typedorm/common` is not
among the provided sources. It carries the declared index signatures of the
physical table, looked up by index name. -/
structure TableM where
  name : String
  indexes : List (String × IndexSignature)
deriving DecidableEq, Repr

/-- Modelled from the spec: `Table.getIndexByKey` is not among the provided
sources; it is the signature lookup `getTableIndexSignature`, yielding the
declared signature for an index name, or nothing (JavaScript `undefined`)
when the table declares no such index. -/
def TableM.getIndexByKey (t : TableM) (key : String) : Option IndexSignature :=
  t.indexes.lookup key

/-- Modelled from the spec: the index metadata shape of entity-metadata
(not among the provided sources). `_name` is the index identifier (the
source reads it with a `?? ''` fallback), `type` its GSI/LSI tag, and
`_interpolations` maps each index attribute name to the entity attribute
names referenced by its template. -/
structure IndexMetadata where
  _name : Option String
  type : IndexType
  _interpolations : List (String × List String)
deriving DecidableEq, Repr

/-- Modelled from the spec: the per-index schema subtree of entity-metadata
(not among the provided sources): an attribute-name-to-template map tagged
with index metadata; the node carries its own `isSparse` flag, which the
walker propagates to the templates (spec section 4.2). -/
structure IndexSchema where
  isSparse : Bool
  attributes : List (String × KeyTemplate)
  metadata : IndexMetadata

/-- Modelled from the spec: the primary-key schema subtree of
entity-metadata (not among the provided sources): a fixed
attribute-name-to-template map, never sparse. -/
structure PrimaryKeySchema where
  attributes : List (String × KeyTemplate)

/-- Modelled from the spec: the full entity schema of entity-metadata (not
among the provided sources): the primary-key node plus one node per index. -/
structure EntitySchema where
  primaryKey : PrimaryKeySchema
  indexes : List (String × IndexSchema)

/-- Modelled from the spec: entity metadata as supplied by the
connection/registry collaborator: the entity's table and schema. -/
structure EntityMetadata where
  table : TableM
  schema : EntitySchema

/-- Modelled from the spec: one attribute descriptor of
`getAttributesForEntity`, with the flag tested by
`IsAutoGeneratedAttributeMetadata` and, for auto-generated attributes, the
generated value. -/
structure AttrMetadata where
  name : String
  value : Value
  autoGenerated : Bool

/-- A flat attribute-name-to-template map viewed as a schema object of leaf
entries, in order. -/
def ofTemplates : List (String × KeyTemplate) → SchemaObj
  | [] => .nil
  | kv :: rest => .leafEntry kv.1 kv.2 (ofTemplates rest)

/-- `getParsedPrimaryKey` (source lines 174-180): resolves the primary-key
attribute map against the attribute bag via the recursive walker, in a
non-sparse context; the `table` parameter is not used. -/
def getParsedPrimaryKey (table : TableM) (primaryKey : PrimaryKeySchema)
    (attributes : JsObj) : Except TError ResolvedObj :=
  recursiveParseEntity (ofTemplates primaryKey.attributes) attributes false

/-- A resolved index as seen by the normalization step: its resolved
attribute object (output of the walker on the index's attribute templates)
together with its metadata, which survives the walk unchanged because
metadata strings contain no placeholders and are non-empty. -/
structure ResolvedIndex where
  attributes : JsObj
  metadata : IndexMetadata

/-- The JavaScript object view of the index metadata (used when a resolved
index is passed through unchanged and spread into the accumulator);
interpolation lists are shown through their array-as-object view. -/
def metadataAsValue (m : IndexMetadata) : Value :=
  .obj [("_name", match m._name with | some n => .str n | none => Value.undef),
        ("type", .str (match m.type with | .GSI => "GSI" | .LSI => "LSI")),
        ("_interpolations",
          .obj (m._interpolations.map (fun kv =>
            (kv.1, .obj (kv.2.enum.map (fun p => (toString p.1, Value.str p.2)))))))]

/-- The JavaScript object view of a resolved index (its own enumerable
keys), as spread by `acc = {...acc, ...onlyKeysIndex}` in the mismatch
fallback. -/
def indexAsObj (index : ResolvedIndex) : JsObj :=
  [("attributes", .obj index.attributes), ("metadata", metadataAsValue index.metadata)]

/-- The index normalization of `toDynamoEntity` (source lines 63-89): with
the table signature looked up for the index's declared name, a GSI whose
signature is also a GSI keeps exactly the signature's partition and sort
key names (values read from the resolved attributes, `undefined` when
absent); an LSI whose signature is also an LSI keeps exactly the
signature's sort key name; on a type mismatch the index is returned
unchanged; reading `.type` of a missing signature raises a `TypeError`,
exactly as `tableIndexSignature.type` does on `undefined`. -/
def normalizeIndex (tableIndexSignature : Option IndexSignature)
    (index : ResolvedIndex) : Except TError JsObj :=
  match index.metadata.type, tableIndexSignature with
  | IndexType.GSI, none => .error .typeError
  | IndexType.GSI, some sig =>
    if sig.type = IndexType.GSI then
      .ok (objSet (objSet [] sig.partitionKey (jsGet index.attributes sig.partitionKey))
        sig.sortKey (jsGet index.attributes sig.sortKey))
    else
      .ok (indexAsObj index)
  | IndexType.LSI, none => .error .typeError
  | IndexType.LSI, some sig =>
    if sig.type = IndexType.LSI then
      .ok (objSet [] sig.sortKey (jsGet index.attributes sig.sortKey))
    else
      .ok (indexAsObj index)

/-- The walk of the `indexes` subtree of the entity schema performed at
source line 43: each index's attribute templates are resolved under the
index node's own `isSparse` flag; metadata passes through the walk
unchanged (its strings contain no placeholders). Errors abort the whole
walk. -/
def parseIndexesList : List (String × IndexSchema) → JsObj →
    Except TError (List (String × ResolvedIndex))
  | [], _ => .ok []
  | (key, idx) :: rest, entity =>
    match recursiveParseEntity (ofTemplates idx.attributes) entity idx.isSparse with
    | .error err => .error err
    | .ok resolved =>
      match parseIndexesList rest entity with
      | .error err => .error err
      | .ok restRes => .ok ((key, ⟨resolved.toJsObj, idx.metadata⟩) :: restRes)

/-- The reduce of source lines 60-93: for each resolved index, look up its
table signature by its metadata `_name` (with `?? ''` fallback), normalize
it, and spread the result onto the accumulator. -/
def normalizeAllIndexes : TableM → List (String × ResolvedIndex) → JsObj →
    Except TError JsObj
  | _, [], acc => .ok acc
  | table, (_, index) :: rest, acc =>
    match normalizeIndex (table.getIndexByKey (index.metadata._name.getD "")) index with
    | .error err => .error err
    | .ok onlyKeysIndex => normalizeAllIndexes table rest (objMerge acc onlyKeysIndex)

/-- The pure body of `toDynamoEntity` (source lines 43-101), after the
auto-generated-attribute merge: walk the full schema (primary-key node,
then the indexes node), recompute the normalized primary key (line 49),
normalize the indexes, and merge `{...entity, ...formattedSchema}` with
`formattedSchema = {...normalizedPrimaryKey, ...normalizedIndexes}`. -/
def toDynamoEntityBody (meta : EntityMetadata) (entity : JsObj) :
    Except TError JsObj :=
  match recursiveParseEntity (ofTemplates meta.schema.primaryKey.attributes) entity false with
  | .error err => .error err
  | .ok _parsedPrimaryKeySubtree =>
    match parseIndexesList meta.schema.indexes entity with
    | .error err => .error err
    | .ok parsedIndexes =>
      match getParsedPrimaryKey meta.table meta.schema.primaryKey entity with
      | .error err => .error err
      | .ok normalizedPrimaryKey =>
        match normalizeAllIndexes meta.table parsedIndexes [] with
        | .error err => .error err
        | .ok normalizedIndexes =>
          .ok (objMerge entity (objMerge normalizedPrimaryKey.toJsObj normalizedIndexes))

/-- The heap of allocated JavaScript objects: a cell per object, allocation
appends at the end. -/
abbrev Heap := List JsObj

/-- Dereference a heap cell. -/
def heapGet (h : Heap) (r : Nat) : JsObj :=
  (h[r]?).getD []

/-- One iteration of the auto-generated-attribute loop (source lines
37-41): for an auto-generated descriptor, `entity = Object.assign({...entity,
[attr.name]: attr.value})` builds a fresh object (a spread plus one
computed-key assignment; single-argument `Object.assign` returns its
argument) and rebinds the local variable to it; the previous object is
never written to. -/
def autoGenStep (st : Heap × Nat) (attr : AttrMetadata) : Heap × Nat :=
  if attr.autoGenerated then
    (st.1 ++ [objSet (heapGet st.1 st.2) attr.name attr.value], st.1.length)
  else st

/-- The whole auto-generated-attribute loop of source lines 37-41: the
final heap and the reference the local `entity` variable is left bound
to. -/
def autoGenMerge (attrMetas : List AttrMetadata) (h : Heap) (entityRef : Nat) :
    Heap × Nat :=
  attrMetas.foldl autoGenStep (h, entityRef)

/-- `toDynamoEntity` (source lines 31-102) over the explicit heap: merge
the auto-generated attribute values into a working copy of the entity
(lines 37-41), run the pure body on the resulting object, and allocate the
final `{...entity, ...formattedSchema}` result (line 101). Returns the new
heap and a reference to the result object. -/
def toDynamoEntity (meta : EntityMetadata) (attrMetas : List AttrMetadata)
    (h : Heap) (entityRef : Nat) : Except TError (Heap × Nat) :=
  match toDynamoEntityBody meta
      (heapGet (autoGenMerge attrMetas h entityRef).1 (autoGenMerge attrMetas h entityRef).2) with
  | .error err => .error err
  | .ok result =>
    .ok ((autoGenMerge attrMetas h entityRef).1 ++ [result],
         (autoGenMerge attrMetas h entityRef).1.length)

/-- The value stored by `acc[interpolationKey] = parsedIndex` in the
affected-index calculator: the resolved string, or the absent signal. -/
def parsedOptToValue : Option String → Value
  | some s => .str s
  | none => Value.undef

/-- `getAffectedIndexesForAttributes` (source lines 110-167): for each key
of the changed-attribute map, skip it when it contains the nested-key
separator (default `.`) or its value is not scalar; otherwise scan every
index's `_interpolations`; whenever an interpolation list references the
changed attribute, re-resolve that index attribute's template (non-sparse)
against the changed-attribute bag and record it under the index attribute
name. A resolver error aborts the whole computation, exactly as a thrown
exception aborts the reduce/forEach loops. An entity schema without
indexes is the empty list (the `if (!indexes) return acc` guard); an
interpolation key with no corresponding attribute template is modelled as
the empty template, a case the spec leaves unspecified and no claim
exercises. -/
def getAffectedIndexesForAttributes (indexes : List (String × IndexSchema))
    (attributes : JsObj) (options : Option String) : Except TError JsObj :=
  (dedupFirst (attributes.map Prod.fst)).foldlM
    (fun acc attrKey =>
      if strIncludes attrKey (options.getD ".")
          || !isScalarType (jsGet attributes attrKey) then
        pure acc
      else
        indexes.foldlM
          (fun acc kv =>
            if kv.2.metadata._interpolations.isEmpty then
              pure acc
            else
              kv.2.metadata._interpolations.foldlM
                (fun acc ip =>
                  if ip.2.contains attrKey then
                    match parseKey ((kv.2.attributes.lookup ip.1).getD [])
                        attributes false with
                    | .error err => .error err
                    | .ok parsedIndex =>
                      pure (objSet acc ip.1 (parsedOptToValue parsedIndex))
                  else
                    pure acc)
                acc)
          acc)
    []

/-- Table for the primary-key counterexample: no secondary indexes. -/
def tblC1 : TableM := ⟨"users", []⟩

/-- Primary-key schema whose `PK` template is a single placeholder and
whose `SK` template is a literal. -/
def pkC1 : PrimaryKeySchema := ⟨[("PK", [.ref "id"]), ("SK", [.lit "A"])]⟩

/-- An entity whose `id` attribute is present but is the empty string. -/
def entC1 : JsObj := [("id", .str "")]

/-- Entity metadata with one sparse GSI whose partition key template
references `email` and whose sort key template references `id`. -/
def mC2 : EntityMetadata :=
  { table := ⟨"users", [("GSI1", ⟨.GSI, "GSI1PK", "GSI1SK"⟩)]⟩,
    schema :=
      { primaryKey := ⟨[("PK", [.lit "USER#", .ref "id"])]⟩,
        indexes :=
          [("GSI1",
            { isSparse := true,
              attributes := [("GSI1PK", [.lit "EMAIL#", .ref "email"]),
                             ("GSI1SK", [.lit "USER#", .ref "id"])],
              metadata := ⟨some "GSI1", .GSI,
                           [("GSI1PK", ["email"]), ("GSI1SK", ["id"])]⟩ })] } }

/-- An entity with an `id` but no `email`. -/
def eC2 : JsObj := [("id", .str "42")]

/-- The storage attribute map `toDynamoEntity` produces for `eC2` under
`mC2`. -/
def rC2 : JsObj :=
  [("id", .str "42"), ("PK", .str "USER#42"),
   ("GSI1PK", Value.undef), ("GSI1SK", .str "USER#42")]

/-- A resolved index with empty attributes and a GSI metadata tag, for the
missing-signature counterexample. -/
def idxC5 : ResolvedIndex := ⟨[], ⟨some "GSI1", .GSI, []⟩⟩

/-- Index schemas for the affected-index counterexample: one GSI whose
`GSI1PK` template references both `status` and `region`. -/
def idxsC6 : List (String × IndexSchema) :=
  [("GSI1",
    { isSparse := false,
      attributes := [("GSI1PK", [.lit "STATUS#", .ref "status",
                                 .lit "#REGION#", .ref "region"])],
      metadata := ⟨some "GSI1", .GSI, [("GSI1PK", ["status", "region"])]⟩ })]

/-- Index schemas for the affected-index witness: one GSI whose `GSI1PK`
template references only `status`. -/
def idxsC6w : List (String × IndexSchema) :=
  [("GSI1",
    { isSparse := false,
      attributes := [("GSI1PK", [.lit "STATUS#", .ref "status"])],
      metadata := ⟨some "GSI1", .GSI, [("GSI1PK", ["status"])]⟩ })]

/-- A GSI signature, for the normalization witness. -/
def sigC4 : IndexSignature := ⟨.GSI, "GSI1PK", "GSI1SK"⟩

/-- A resolved GSI with an extra resolved attribute beyond the signature's
key names (the spec's own normalization example). -/
def idxC4 : ResolvedIndex :=
  ⟨[("GSI1PK", .str "a"), ("GSI1SK", .str "b"), ("extra", .str "c")],
   ⟨some "GSI1", .GSI, []⟩⟩

/-- Minimal entity metadata for the frame witness: a literal primary key
and no indexes. -/
def mC8 : EntityMetadata :=
  { table := ⟨"t", []⟩,
    schema := { primaryKey := ⟨[("PK", [.lit "A"])]⟩, indexes := [] } }

/-- One auto-generated attribute descriptor. -/
def amsC8 : List AttrMetadata := [⟨"createdAt", .str "now", true⟩]

/-- The caller's entity object for the frame witness. -/
def eC8 : JsObj := [("id", .str "1")]

/-- The caller's heap for the frame witness: the entity object alone. -/
def hC8 : Heap := [eC8]

/-- The heap after the frame-witness transform: the caller's object, the
auto-generated working copy, and the result object. -/
def hC8out : Heap :=
  [[("id", .str "1")],
   [("id", .str "1"), ("createdAt", .str "now")],
   [("id", .str "1"), ("createdAt", .str "now"), ("PK", .str "A")]]

/-- Condition of the empty-result property of the affected-index
calculator: every key of the changed-attribute map contains the separator
or maps to a non-scalar value. -/
def allNestedOrNonScalar (attributes : JsObj) (sep : String) : Bool :=
  (attributes.map Prod.fst).all
    (fun k => strIncludes k sep || !isScalarType (jsGet attributes k))

/-- Condition under which the affected-index calculator cannot throw: for
every considered (top-level, scalar) changed attribute and every index
interpolation entry referencing it, all entity attributes referenced by the
corresponding index attribute template are present in the
changed-attribute bag. -/
def calcNoThrowChecker (indexes : List (String × IndexSchema))
    (attributes : JsObj) (sep : String) : Bool :=
  (attributes.map Prod.fst).all (fun attrKey =>
    (strIncludes attrKey sep || !isScalarType (jsGet attributes attrKey)) ||
    indexes.all (fun kv =>
      kv.2.metadata._interpolations.all (fun ip =>
        !(ip.2.contains attrKey) ||
        (templateRefs ((kv.2.attributes.lookup ip.1).getD [])).all
          (fun a => !(jsGet attributes a).isUndef))))

/-- Primary-key schema for the amended-claim witness: a single placeholder
template. -/
def pkC1w : PrimaryKeySchema := ⟨[("PK", [.ref "id"])]⟩

/-- Entity for the amended-claim witness. -/
def eC1w : JsObj := [("id", .str "42")]

/-- Schema for the walker-characterization witness: one nested node holding
one literal leaf. -/
def schemaC3w : SchemaObj :=
  .nodeEntry "A" false (.leafEntry "B" [.lit "x"] .nil) .nil

/-- Sparse attribute subtree for the sparse-omission witness: a single
template referencing `email`. -/
def schemaC2w : SchemaObj := .leafEntry "GSI1PK" [.lit "EMAIL#", .ref "email"] .nil

/-- A resolved sparse GSI in which only the sort key resolved. -/
def idxC2w : ResolvedIndex := ⟨[("GSI1SK", .str "USER#42")], ⟨some "GSI1", .GSI, []⟩⟩

/-- An LSI signature, for the type-mismatch witness. -/
def sigC5w : IndexSignature := ⟨.LSI, "p", "s"⟩

/-- Schema for the falsy-resolution witness: one leaf whose template is a
single placeholder. -/
def schemaC9 : SchemaObj := .leafEntry "K" [.ref "id"] .nil

/-- Entity whose `id` is present but empty, for the falsy-resolution
witness. -/
def eC9 : JsObj := [("id", .str "")]

/-- Changed-attribute map with only a dotted key and a non-scalar value. -/
def attrsC7 : JsObj := [("profile.name", .str "x"), ("tags", .obj [])]

/-! ## Helper lemmas -/

theorem parseKey_error_eq : ∀ (tpl : KeyTemplate) (e : JsObj) (sp : Bool) (err : TError),
    parseKey tpl e sp = .error err → err = .missingAttributeError := by
  intro tpl e sp
  induction tpl with
  | nil => intro err h; simp [parseKey] at h
  | cons part rest ih =>
    intro err h
    cases part with
    | lit s =>
      cases hp : parseKey rest e sp with
      | error e2 =>
        simp [parseKey, hp] at h
        exact h ▸ ih e2 hp
      | ok o => cases o <;> simp [parseKey, hp] at h
    | ref a =>
      cases hv : jsGet e a with
      | undef =>
        cases sp <;> simp [parseKey, hv] at h
        exact h.symm
      | str v =>
        cases hp : parseKey rest e sp with
        | error e2 => simp [parseKey, hv, hp] at h; exact h ▸ ih e2 hp
        | ok o => cases o <;> simp [parseKey, hv, hp] at h
      | num v =>
        cases hp : parseKey rest e sp with
        | error e2 => simp [parseKey, hv, hp] at h; exact h ▸ ih e2 hp
        | ok o => cases o <;> simp [parseKey, hv, hp] at h
      | bool v =>
        cases hp : parseKey rest e sp with
        | error e2 => simp [parseKey, hv, hp] at h; exact h ▸ ih e2 hp
        | ok o => cases o <;> simp [parseKey, hv, hp] at h
      | obj v =>
        cases hp : parseKey rest e sp with
        | error e2 => simp [parseKey, hv, hp] at h; exact h ▸ ih e2 hp
        | ok o => cases o <;> simp [parseKey, hv, hp] at h

theorem parseKey_ok_of_refs : ∀ (tpl : KeyTemplate) (e : JsObj),
    (templateRefs tpl).all (fun a => !(jsGet e a).isUndef) = true →
    ∃ s, parseKey tpl e false = .ok (some s) := by
  intro tpl e
  induction tpl with
  | nil => intro _; exact ⟨"", rfl⟩
  | cons part rest ih =>
    intro hall
    cases part with
    | lit s =>
      simp only [templateRefs] at hall
      obtain ⟨r, hr⟩ := ih hall
      exact ⟨s ++ r, by simp [parseKey, hr]⟩
    | ref a =>
      simp only [templateRefs, List.all_cons, Bool.and_eq_true] at hall
      obtain ⟨ha, hrest⟩ := hall
      obtain ⟨r, hr⟩ := ih hrest
      refine ⟨valueToString (jsGet e a) ++ r, ?_⟩
      cases hv : jsGet e a <;> rw [hv] at ha <;>
        simp [parseKey, hv, hr, Value.isUndef] at ha ⊢

theorem mem_of_mem_dedupFirst : ∀ (l : List String) (a : String),
    a ∈ dedupFirst l → a ∈ l := by
  intro l
  induction l with
  | nil => intro a h; simp [dedupFirst] at h
  | cons k rest ih =>
    intro a h
    simp only [dedupFirst] at h
    rcases List.mem_cons.mp h with h1 | h2
    · exact h1 ▸ List.mem_cons_self _ _
    · exact List.mem_cons_of_mem _ (ih a (List.mem_of_mem_filter h2))

theorem exceptFoldlM_ok_of_ok {α β : Type} : ∀ (l : List α) (f : β → α → Except TError β),
    (∀ b a, a ∈ l → ∃ b2, f b a = .ok b2) → ∀ init, ∃ r, l.foldlM f init = .ok r := by
  intro l
  induction l with
  | nil => intro f _ init; exact ⟨init, rfl⟩
  | cons a l ih =>
    intro f h init
    obtain ⟨b2, hb2⟩ := h init a (List.mem_cons_self a l)
    obtain ⟨r, hr⟩ := ih f (fun b x hx => h b x (List.mem_cons_of_mem a hx)) b2
    exact ⟨r, by rw [List.foldlM_cons, hb2]; exact hr⟩

theorem exceptFoldlM_skip {α β : Type} : ∀ (l : List α) (f : β → α → Except TError β),
    (∀ b a, a ∈ l → f b a = .ok b) → ∀ init, l.foldlM f init = .ok init := by
  intro l
  induction l with
  | nil => intro f _ init; rfl
  | cons a l ih =>
    intro f h init
    rw [List.foldlM_cons, h init a (List.mem_cons_self a l)]
    exact ih f (fun b x hx => h b x (List.mem_cons_of_mem a hx)) init

theorem autoGenFoldPrefix : ∀ (l : List AttrMetadata) (h : Heap) (r : Nat),
    ∃ ext, (autoGenMerge l h r).1 = h ++ ext := by
  unfold autoGenMerge
  intro l
  induction l with
  | nil => intro h r; exact ⟨[], (List.append_nil h).symm⟩
  | cons a l ih =>
    intro h r
    rw [List.foldl_cons]
    by_cases hg : a.autoGenerated
    · obtain ⟨ext, he⟩ :=
        ih (h ++ [objSet (heapGet h r) a.name a.value]) h.length
      refine ⟨[objSet (heapGet h r) a.name a.value] ++ ext, ?_⟩
      simp only [autoGenStep, hg, if_true]
      rw [he, List.append_assoc]
    · simp only [autoGenStep, if_neg hg]
      exact ih h r

theorem walk_error_eq : ∀ (schema : SchemaObj) (e : JsObj) (sp : Bool) (err : TError),
    recursiveParseEntity schema e sp = .error err → err = .missingAttributeError := by
  intro schema
  induction schema with
  | nil => intro e sp err h; simp [recursiveParseEntity] at h
  | leafEntry key tpl rest ih =>
    intro e sp err h
    cases hp : parseKey tpl e sp with
    | error e2 =>
      simp [recursiveParseEntity, hp] at h
      exact h ▸ parseKey_error_eq tpl e sp e2 hp
    | ok o =>
      cases hr : recursiveParseEntity rest e sp with
      | error e2 =>
        simp [recursiveParseEntity, hp, hr] at h
        exact h ▸ ih e sp e2 hr
      | ok restRes =>
        cases o with
        | none => simp [recursiveParseEntity, hp, hr] at h
        | some s =>
          by_cases hs : s = "" <;> simp [recursiveParseEntity, hp, hr, hs] at h
  | nodeEntry key sp2 children rest ihc ihr =>
    intro e sp err h
    cases hc : recursiveParseEntity children e sp2 with
    | error e2 =>
      simp [recursiveParseEntity, hc] at h
      exact h ▸ ihc e sp2 e2 hc
    | ok sub =>
      cases hr : recursiveParseEntity rest e sp with
      | error e2 =>
        simp [recursiveParseEntity, hc, hr] at h
        exact h ▸ ihr e sp e2 hr
      | ok restRes => simp [recursiveParseEntity, hc, hr] at h

theorem walk_keys_sub : ∀ (schema : SchemaObj) (e : JsObj) (sp : Bool) (out : ResolvedObj),
    recursiveParseEntity schema e sp = .ok out → out.keys ⊆ schema.keys := by
  intro schema
  induction schema with
  | nil =>
    intro e sp out h
    simp [recursiveParseEntity] at h
    subst h
    simp [ResolvedObj.keys]
  | leafEntry key tpl rest ih =>
    intro e sp out h
    cases hp : parseKey tpl e sp with
    | error e2 => simp [recursiveParseEntity, hp] at h
    | ok o =>
      cases hr : recursiveParseEntity rest e sp with
      | error e2 => simp [recursiveParseEntity, hp, hr] at h
      | ok restRes =>
        cases o with
        | none =>
          simp [recursiveParseEntity, hp, hr] at h
          subst h
          exact fun a ha => List.mem_cons_of_mem _ (ih e sp restRes hr ha)
        | some s =>
          by_cases hs : s = ""
          · simp [recursiveParseEntity, hp, hr, hs] at h
            subst h
            exact fun a ha => List.mem_cons_of_mem _ (ih e sp restRes hr ha)
          · simp [recursiveParseEntity, hp, hr, hs] at h
            subst h
            intro a ha
            simp only [ResolvedObj.keys, List.mem_cons] at ha
            simp only [SchemaObj.keys, List.mem_cons]
            rcases ha with rfl | ha
            · exact Or.inl rfl
            · exact Or.inr (ih e sp restRes hr ha)
  | nodeEntry key sp2 children rest ihc ihr =>
    intro e sp out h
    cases hc : recursiveParseEntity children e sp2 with
    | error e2 => simp [recursiveParseEntity, hc] at h
    | ok sub =>
      cases hr : recursiveParseEntity rest e sp with
      | error e2 => simp [recursiveParseEntity, hc, hr] at h
      | ok restRes =>
        simp [recursiveParseEntity, hc, hr] at h
        subst h
        intro a ha
        simp only [ResolvedObj.keys, List.mem_cons] at ha
        simp only [SchemaObj.keys, List.mem_cons]
        rcases ha with rfl | ha
        · exact Or.inl rfl
        · exact Or.inr (ihr e sp restRes hr ha)

theorem hasLeaf_mem_keys : ∀ (schema : SchemaObj) (key : String) (tpl : KeyTemplate),
    schema.hasLeaf key tpl = true → key ∈ schema.keys := by
  intro schema
  induction schema with
  | nil => intro key tpl h; simp [SchemaObj.hasLeaf] at h
  | leafEntry k t rest ih =>
    intro key tpl h
    simp only [SchemaObj.hasLeaf, Bool.or_eq_true, Bool.and_eq_true,
      decide_eq_true_eq] at h
    simp only [SchemaObj.keys, List.mem_cons]
    rcases h with ⟨hk, _⟩ | h2
    · exact Or.inl hk.symm
    · exact Or.inr (ih key tpl h2)
  | nodeEntry k s c rest ihc ihr =>
    intro key tpl h
    simp only [SchemaObj.hasLeaf] at h
    simp only [SchemaObj.keys, List.mem_cons]
    exact Or.inr (ihr key tpl h)

theorem walk_hasStr : ∀ (schema : SchemaObj) (e : JsObj) (sp : Bool) (out : ResolvedObj)
    (key : String) (tpl : KeyTemplate) (s : String),
    schema.hasLeaf key tpl = true →
    recursiveParseEntity schema e sp = .ok out →
    parseKey tpl e sp = .ok (some s) →
    s ≠ "" →
    out.hasStr key s = true := by
  intro schema
  induction schema with
  | nil => intro e sp out key tpl s hl _ _ _; simp [SchemaObj.hasLeaf] at hl
  | leafEntry k t rest ih =>
    intro e sp out key tpl s hl hw hp hs
    simp only [SchemaObj.hasLeaf, Bool.or_eq_true, Bool.and_eq_true,
      decide_eq_true_eq] at hl
    rcases hl with ⟨hk, ht⟩ | h2
    · subst hk; subst ht
      cases hr : recursiveParseEntity rest e sp with
      | error e2 => simp [recursiveParseEntity, hp, hr] at hw
      | ok restRes =>
        simp [recursiveParseEntity, hp, hr, hs] at hw
        subst hw
        simp [ResolvedObj.hasStr]
    · cases hpk : parseKey t e sp with
      | error e2 => simp [recursiveParseEntity, hpk] at hw
      | ok o =>
        cases hr : recursiveParseEntity rest e sp with
        | error e2 => simp [recursiveParseEntity, hpk, hr] at hw
        | ok restRes =>
          cases o with
          | none =>
            simp [recursiveParseEntity, hpk, hr] at hw
            subst hw
            exact ih e sp restRes key tpl s h2 hr hp hs
          | some s2 =>
            by_cases hs2 : s2 = ""
            · simp [recursiveParseEntity, hpk, hr, hs2] at hw
              subst hw
              exact ih e sp restRes key tpl s h2 hr hp hs
            · simp [recursiveParseEntity, hpk, hr, hs2] at hw
              subst hw
              simp only [ResolvedObj.hasStr, Bool.or_eq_true]
              exact Or.inr (ih e sp restRes key tpl s h2 hr hp hs)
  | nodeEntry k sp2 children rest ihc ihr =>
    intro e sp out key tpl s hl hw hp hs
    simp only [SchemaObj.hasLeaf] at hl
    cases hc : recursiveParseEntity children e sp2 with
    | error e2 => simp [recursiveParseEntity, hc] at hw
    | ok sub =>
      cases hr : recursiveParseEntity rest e sp with
      | error e2 => simp [recursiveParseEntity, hc, hr] at hw
      | ok restRes =>
        simp [recursiveParseEntity, hc, hr] at hw
        subst hw
        simp only [ResolvedObj.hasStr]
        exact ihr e sp restRes key tpl s hl hr hp hs

theorem walk_hasNode : ∀ (schema : SchemaObj) (e : JsObj) (sp : Bool) (out : ResolvedObj)
    (key : String) (spc : Bool) (ch : SchemaObj),
    schema.hasNode key spc ch = true →
    recursiveParseEntity schema e sp = .ok out →
    ∃ sub, recursiveParseEntity ch e spc = .ok sub ∧ out.hasObj key sub = true := by
  intro schema
  induction schema with
  | nil => intro e sp out key spc ch hn _; simp [SchemaObj.hasNode] at hn
  | leafEntry k t rest ih =>
    intro e sp out key spc ch hn hw
    simp only [SchemaObj.hasNode] at hn
    cases hpk : parseKey t e sp with
    | error e2 => simp [recursiveParseEntity, hpk] at hw
    | ok o =>
      cases hr : recursiveParseEntity rest e sp with
      | error e2 => simp [recursiveParseEntity, hpk, hr] at hw
      | ok restRes =>
        cases o with
        | none =>
          simp [recursiveParseEntity, hpk, hr] at hw
          subst hw
          exact ih e sp restRes key spc ch hn hr
        | some s2 =>
          by_cases hs2 : s2 = ""
          · simp [recursiveParseEntity, hpk, hr, hs2] at hw
            subst hw
            exact ih e sp restRes key spc ch hn hr
          · simp [recursiveParseEntity, hpk, hr, hs2] at hw
            subst hw
            obtain ⟨sub, hsub, hhas⟩ := ih e sp restRes key spc ch hn hr
            exact ⟨sub, hsub, by simp only [ResolvedObj.hasObj]; exact hhas⟩
  | nodeEntry k sp2 children rest ihc ihr =>
    intro e sp out key spc ch hn hw
    simp only [SchemaObj.hasNode, Bool.or_eq_true, Bool.and_eq_true,
      decide_eq_true_eq] at hn
    cases hc : recursiveParseEntity children e sp2 with
    | error e2 => simp [recursiveParseEntity, hc] at hw
    | ok sub0 =>
      cases hr : recursiveParseEntity rest e sp with
      | error e2 => simp [recursiveParseEntity, hc, hr] at hw
      | ok restRes =>
        simp [recursiveParseEntity, hc, hr] at hw
        subst hw
        rcases hn with ⟨⟨hk, hsp⟩, hch⟩ | h2
        · subst hk; subst hsp; subst hch
          refine ⟨sub0, hc, ?_⟩
          simp [ResolvedObj.hasObj]
        · obtain ⟨sub, hsub, hhas⟩ := ihr e sp restRes key spc ch h2 hr
          refine ⟨sub, hsub, ?_⟩
          simp only [ResolvedObj.hasObj, Bool.or_eq_true]
          exact Or.inr hhas

theorem walk_not_mem : ∀ (schema : SchemaObj) (e : JsObj) (sp : Bool) (out : ResolvedObj)
    (key : String) (tpl : KeyTemplate),
    schema.keys.Nodup →
    schema.hasLeaf key tpl = true →
    (parseKey tpl e sp = .ok none ∨ parseKey tpl e sp = .ok (some "")) →
    recursiveParseEntity schema e sp = .ok out →
    key ∉ out.keys := by
  intro schema
  induction schema with
  | nil => intro e sp out key tpl _ hl _ _; simp [SchemaObj.hasLeaf] at hl
  | leafEntry k t rest ih =>
    intro e sp out key tpl hnd hl habs hw
    simp only [SchemaObj.keys, List.nodup_cons] at hnd
    obtain ⟨hknotin, hndrest⟩ := hnd
    simp only [SchemaObj.hasLeaf, Bool.or_eq_true, Bool.and_eq_true,
      decide_eq_true_eq] at hl
    rcases hl with ⟨hk, ht⟩ | h2
    · subst hk; subst ht
      cases hr : recursiveParseEntity rest e sp with
      | error e2 =>
        rcases habs with hab | hab <;> simp [recursiveParseEntity, hab, hr] at hw
      | ok restRes =>
        have hout : restRes = out := by
          rcases habs with hab | hab <;> simp [recursiveParseEntity, hab, hr] at hw <;>
            exact hw
        subst hout
        intro hmem
        exact hknotin (walk_keys_sub rest e sp restRes hr hmem)
    · have hkmem : key ∈ rest.keys := hasLeaf_mem_keys rest key tpl h2
      have hkne : key ≠ k := fun hcontra => hknotin (hcontra ▸ hkmem)
      cases hpk : parseKey t e sp with
      | error e2 => simp [recursiveParseEntity, hpk] at hw
      | ok o =>
        cases hr : recursiveParseEntity rest e sp with
        | error e2 => simp [recursiveParseEntity, hpk, hr] at hw
        | ok restRes =>
          cases o with
          | none =>
            simp [recursiveParseEntity, hpk, hr] at hw
            subst hw
            exact ih e sp restRes key tpl hndrest h2 habs hr
          | some s2 =>
            by_cases hs2 : s2 = ""
            · simp [recursiveParseEntity, hpk, hr, hs2] at hw
              subst hw
              exact ih e sp restRes key tpl hndrest h2 habs hr
            · simp [recursiveParseEntity, hpk, hr, hs2] at hw
              subst hw
              simp only [ResolvedObj.keys, List.mem_cons, not_or]
              exact ⟨hkne, ih e sp restRes key tpl hndrest h2 habs hr⟩
  | nodeEntry k sp2 children rest ihc ihr =>
    intro e sp out key tpl hnd hl habs hw
    simp only [SchemaObj.keys, List.nodup_cons] at hnd
    obtain ⟨hknotin, hndrest⟩ := hnd
    simp only [SchemaObj.hasLeaf] at hl
    have hkmem : key ∈ rest.keys := hasLeaf_mem_keys rest key tpl hl
    have hkne : key ≠ k := fun hcontra => hknotin (hcontra ▸ hkmem)
    cases hc : recursiveParseEntity children e sp2 with
    | error e2 => simp [recursiveParseEntity, hc] at hw
    | ok sub =>
      cases hr : recursiveParseEntity rest e sp with
      | error e2 => simp [recursiveParseEntity, hc, hr] at hw
      | ok restRes =>
        simp [recursiveParseEntity, hc, hr] at hw
        subst hw
        simp only [ResolvedObj.keys, List.mem_cons, not_or]
        exact ⟨hkne, ihr e sp restRes key tpl hndrest hl habs hr⟩

theorem ofTemplates_keys : ∀ (l : List (String × KeyTemplate)),
    (ofTemplates l).keys = l.map Prod.fst := by
  intro l
  induction l with
  | nil => rfl
  | cons kv rest ih => simp [ofTemplates, SchemaObj.keys, ih]

theorem ofTemplates_hasLeaf : ∀ (l : List (String × KeyTemplate))
    (kv : String × KeyTemplate), kv ∈ l → (ofTemplates l).hasLeaf kv.1 kv.2 = true := by
  intro l
  induction l with
  | nil => intro kv h; simp at h
  | cons p rest ih =>
    intro kv h
    rcases List.mem_cons.mp h with rfl | h2
    · simp [ofTemplates, SchemaObj.hasLeaf]
    · simp only [ofTemplates, SchemaObj.hasLeaf, Bool.or_eq_true]
      exact Or.inr (ih kv h2)

theorem jsGet_objSet_self : ∀ (o : JsObj) (k : String) (v : Value),
    jsGet (objSet o k v) k = v := by
  intro o
  induction o with
  | nil => intro k v; simp [objSet, jsGet, List.lookup]
  | cons p rest ih =>
    intro k v
    by_cases hp : p.1 = k
    · simp [objSet, List.any_cons, hp, jsGet, List.lookup]
    · have hne : (k == p.1) = false := by
        simp only [beq_eq_false_iff_ne, ne_eq]
        exact fun hc => hp hc.symm
      by_cases hr : rest.any (fun q => q.1 = k)
      · have h1 : objSet (p :: rest) k v
            = p :: rest.map (fun q => if q.1 = k then (k, v) else q) := by
          simp [objSet, List.any_cons, hp, hr]
        have h2 : objSet rest k v
            = rest.map (fun q => if q.1 = k then (k, v) else q) := by
          simp [objSet, hr]
        rw [h1]
        have := ih k v
        rw [h2] at this
        simpa [jsGet, List.lookup, hne] using this
      · have h1 : objSet (p :: rest) k v = p :: (rest ++ [(k, v)]) := by
          simp [objSet, List.any_cons, hp, hr]
        have h2 : objSet rest k v = rest ++ [(k, v)] := by
          simp [objSet, hr]
        rw [h1]
        have := ih k v
        rw [h2] at this
        simpa [jsGet, List.lookup, hne] using this

theorem mem_map_fst_objSet : ∀ (o : JsObj) (k : String) (v : Value),
    k ∈ (objSet o k v).map Prod.fst := by
  intro o
  induction o with
  | nil => intro k v; simp [objSet]
  | cons p rest ih =>
    intro k v
    by_cases hp : p.1 = k
    · simp [objSet, List.any_cons, hp]
    · by_cases hr : rest.any (fun q => q.1 = k)
      · have h1 : objSet (p :: rest) k v
            = p :: rest.map (fun q => if q.1 = k then (k, v) else q) := by
          simp [objSet, List.any_cons, hp, hr]
        have h2 : objSet rest k v
            = rest.map (fun q => if q.1 = k then (k, v) else q) := by
          simp [objSet, hr]
        rw [h1]
        have := ih k v
        rw [h2] at this
        simp only [List.map_cons, List.mem_cons]
        exact Or.inr this
      · have h1 : objSet (p :: rest) k v = p :: (rest ++ [(k, v)]) := by
          simp [objSet, List.any_cons, hp, hr]
        rw [h1]
        simp

/-! ## Claim theorems -/

/-- Claim C1, counterexample: with declared primary-key attributes `PK`
(template `{id}`) and `SK` (literal `A`) and an entity whose `id` is the
empty string, `getParsedPrimaryKey` neither covers every declared attribute
nor throws: it returns a map covering only `SK`, because the falsy resolved
value of `PK` is dropped by the walker's truthiness test. -/
theorem c1_counterexample :
    getParsedPrimaryKey tblC1 pkC1 entC1 = .ok (.strEntry "SK" "A" .nil) ∧
    pkC1.attributes.map Prod.fst = ["PK", "SK"] ∧
    "PK" ∉ (ResolvedObj.strEntry "SK" "A" .nil).keys :=
  ⟨rfl, rfl, by decide⟩

/-- Claim C1 (amended): `getParsedPrimaryKey` either throws
`MissingAttributeError` (the only error it can raise) or returns a map
that stays within the declared attributes, contains every declared
attribute whose template resolves to a non-empty string with that value,
and omits the declared attributes whose templates resolve to the empty
string. In particular the map is complete whenever every declared template
resolves to a non-empty value. -/
theorem c1_amended :
    ∀ (t : TableM) (pk : PrimaryKeySchema) (e : JsObj),
    (∀ err, getParsedPrimaryKey t pk e = .error err → err = .missingAttributeError) ∧
    (∀ out, getParsedPrimaryKey t pk e = .ok out →
      out.keys ⊆ pk.attributes.map Prod.fst ∧
      (∀ kv ∈ pk.attributes, ∀ s, parseKey kv.2 e false = .ok (some s) → s ≠ "" →
        out.hasStr kv.1 s = true) ∧
      ((pk.attributes.map Prod.fst).Nodup →
        ∀ kv ∈ pk.attributes, parseKey kv.2 e false = .ok (some "") →
          kv.1 ∉ out.keys)) := by
  intro t pk e
  constructor
  · exact fun err h => walk_error_eq (ofTemplates pk.attributes) e false err h
  · intro out hw
    refine ⟨?_, ?_, ?_⟩
    · intro a ha
      have := walk_keys_sub (ofTemplates pk.attributes) e false out hw ha
      rwa [ofTemplates_keys] at this
    · intro kv hkv s hp hs
      exact walk_hasStr (ofTemplates pk.attributes) e false out kv.1 kv.2 s
        (ofTemplates_hasLeaf pk.attributes kv hkv) hw hp hs
    · intro hnd kv hkv hp
      refine walk_not_mem (ofTemplates pk.attributes) e false out kv.1 kv.2 ?_
        (ofTemplates_hasLeaf pk.attributes kv hkv) (Or.inr hp) hw
      rwa [ofTemplates_keys]

/-- Witness for the amended claim C1: at a primary key `PK` with template
`{id}` and entity `id = 42`, the resolved map is complete and carries
`PK = 42`. -/
theorem c1_witness :
    getParsedPrimaryKey tblC1 pkC1w eC1w = .ok (.strEntry "PK" "42" .nil) ∧
    (ResolvedObj.strEntry "PK" "42" .nil).hasStr "PK" "42" = true :=
  ⟨rfl, ((c1_amended tblC1 pkC1w eC1w).2 (.strEntry "PK" "42" .nil) rfl).2.1
    ("PK", [.ref "id"]) (by decide) "42" rfl (by decide)⟩

/-- Claim C2, counterexample: for the sparse GSI of `mC2` (partition key
template referencing the absent `email`, sort key template referencing the
present `id`), `toDynamoEntity` outputs an attribute map in which the
index's key names do appear: `GSI1SK` with its resolved value and `GSI1PK`
bound to `undefined`, contradicting that none of the index's attribute
names appear in the output. -/
theorem c2_counterexample :
    toDynamoEntity mC2 [] [eC2] 0 = .ok ([eC2, rC2], 1) ∧
    "GSI1PK" ∈ rC2.map Prod.fst ∧ jsGet rC2 "GSI1PK" = Value.undef ∧
    "GSI1SK" ∈ rC2.map Prod.fst ∧ jsGet rC2 "GSI1SK" = .str "USER#42" :=
  ⟨rfl, by decide, rfl, by decide, rfl⟩

/-- Claim C2 (amended): under sparse resolution, an index attribute whose
template references an absent entity attribute is omitted from the
walker's resolved index subtree; but attributes of the same index whose
templates resolve remain, and GSI normalization reintroduces the
signature's key names unconditionally, so an unresolved partition key name
reappears in the output bound to `undefined`. -/
theorem c2_amended :
    (∀ (schema : SchemaObj) (e : JsObj) (key : String) (tpl : KeyTemplate)
       (out : ResolvedObj),
      schema.keys.Nodup → schema.hasLeaf key tpl = true →
      parseKey tpl e true = .ok none →
      recursiveParseEntity schema e true = .ok out → key ∉ out.keys) ∧
    (∀ (sig : IndexSignature) (index : ResolvedIndex),
      index.metadata.type = .GSI → sig.type = .GSI →
      index.attributes.lookup sig.partitionKey = none →
      ∃ m, normalizeIndex (some sig) index = .ok m ∧
        sig.partitionKey ∈ m.map Prod.fst ∧ jsGet m sig.partitionKey = Value.undef) := by
  constructor
  · exact fun schema e key tpl out hnd hl hp hw =>
      walk_not_mem schema e true out key tpl hnd hl (Or.inl hp) hw
  · intro sig index hmt hst hlk
    obtain ⟨attrs, meta⟩ := index
    obtain ⟨nm, ty, ips⟩ := meta
    simp only at hmt hlk
    subst hmt
    have hundef : jsGet attrs sig.partitionKey = Value.undef := by
      simp [jsGet, hlk]
    have hnorm : normalizeIndex (some sig) ⟨attrs, ⟨nm, .GSI, ips⟩⟩ =
        .ok (objSet (objSet [] sig.partitionKey (jsGet attrs sig.partitionKey))
          sig.sortKey (jsGet attrs sig.sortKey)) := by
      simp [normalizeIndex, hst]
    rw [hundef] at hnorm
    refine ⟨_, hnorm, ?_, ?_⟩
    · by_cases hks : sig.partitionKey = sig.sortKey
      · rw [← hks, hundef]
        exact mem_map_fst_objSet _ _ _
      · have h1 : objSet [] sig.partitionKey Value.undef
            = [(sig.partitionKey, Value.undef)] := by simp [objSet]
        have h2 : objSet [(sig.partitionKey, Value.undef)] sig.sortKey
            (jsGet attrs sig.sortKey)
            = [(sig.partitionKey, Value.undef),
               (sig.sortKey, jsGet attrs sig.sortKey)] := by
          simp [objSet, hks]
        rw [h1, h2]
        simp
    · by_cases hks : sig.partitionKey = sig.sortKey
      · rw [← hks, hundef]
        exact jsGet_objSet_self _ _ _
      · have h1 : objSet [] sig.partitionKey Value.undef
            = [(sig.partitionKey, Value.undef)] := by simp [objSet]
        have h2 : objSet [(sig.partitionKey, Value.undef)] sig.sortKey
            (jsGet attrs sig.sortKey)
            = [(sig.partitionKey, Value.undef),
               (sig.sortKey, jsGet attrs sig.sortKey)] := by
          simp [objSet, hks]
        rw [h1, h2]
        simp [jsGet, List.lookup]

/-- Witness for the amended claim C2: for the sparse template referencing
the absent `email`, `GSI1PK` is omitted from the walker's result; and for
a resolved GSI lacking `GSI1PK`, normalization re-emits `GSI1PK` bound to
`undefined`. -/
theorem c2_witness :
    ("GSI1PK" ∉ ResolvedObj.nil.keys) ∧
    (∃ m, normalizeIndex (some sigC4) idxC2w = .ok m ∧
      "GSI1PK" ∈ m.map Prod.fst ∧ jsGet m "GSI1PK" = Value.undef) :=
  ⟨c2_amended.1 schemaC2w [("id", .str "42")] "GSI1PK"
      [.lit "EMAIL#", .ref "email"] .nil (by decide) (by decide) rfl rfl,
   c2_amended.2 sigC4 idxC2w rfl rfl rfl⟩

/-- Claim C3, counterexample: a nested sparse node whose single leaf is
unresolvable resolves to an empty object, yet the node's key `A` stays in
the walker's output as an empty object: fully empty nested nodes are not
removed. -/
theorem c3_counterexample :
    recursiveParseEntity
      (.nodeEntry "A" true (.leafEntry "B" [.ref "email"] .nil) .nil) [] false
      = .ok (.objEntry "A" .nil .nil) ∧
    "A" ∈ (ResolvedObj.objEntry "A" .nil .nil).keys :=
  ⟨rfl, by decide⟩

/-- Claim C3 (amended): the walker's result is the input tree with each
leaf template replaced by its resolved value when that value is truthy,
with absent (or falsy) leaves omitted, and with every nested node retained
— recursively resolved under its own sparse flag — even when it becomes
fully empty. -/
theorem c3_amended :
    ∀ (schema : SchemaObj) (e : JsObj) (sp : Bool) (out : ResolvedObj),
    recursiveParseEntity schema e sp = .ok out →
    out.keys ⊆ schema.keys ∧
    (∀ key spc ch, schema.hasNode key spc ch = true →
      ∃ sub, recursiveParseEntity ch e spc = .ok sub ∧ out.hasObj key sub = true) ∧
    (∀ key tpl s, schema.hasLeaf key tpl = true →
      parseKey tpl e sp = .ok (some s) → s ≠ "" → out.hasStr key s = true) ∧
    (schema.keys.Nodup → ∀ key tpl, schema.hasLeaf key tpl = true →
      (parseKey tpl e sp = .ok none ∨ parseKey tpl e sp = .ok (some "")) →
      key ∉ out.keys) := by
  intro schema e sp out hw
  refine ⟨walk_keys_sub schema e sp out hw, ?_, ?_, ?_⟩
  · exact fun key spc ch hn => walk_hasNode schema e sp out key spc ch hn hw
  · exact fun key tpl s hl hp hs => walk_hasStr schema e sp out key tpl s hl hw hp hs
  · exact fun hnd key tpl hl habs => walk_not_mem schema e sp out key tpl hnd hl habs hw

/-- Witness for the amended claim C3: at a schema with one nested node `A`
holding the literal leaf `B`, the walker keeps `A` as a nested object whose
`B` carries the resolved value. -/
theorem c3_witness :
    ∃ sub, recursiveParseEntity (.leafEntry "B" [.lit "x"] .nil) [] false = .ok sub ∧
      (ResolvedObj.objEntry "A" (.strEntry "B" "x" .nil) .nil).hasObj "A" sub = true :=
  (c3_amended schemaC3w [] false (.objEntry "A" (.strEntry "B" "x" .nil) .nil) rfl).2.1
    "A" false (.leafEntry "B" [.lit "x"] .nil) (by decide)

/-- Claim C4: when the resolved index's declared type matches the table
signature's type, normalization yields exactly the signature's declared key
names and no others: for a GSI exactly the partition and sort key names,
for an LSI exactly the sort key name; no attribute name outside the
declared signature is introduced. -/
theorem c4_normalized_keys_exact :
    ∀ (sig : IndexSignature) (index : ResolvedIndex),
    index.metadata.type = sig.type →
    ∃ m, normalizeIndex (some sig) index = .ok m ∧
      m.map Prod.fst = (if sig.type = IndexType.GSI
        then dedupFirst [sig.partitionKey, sig.sortKey]
        else [sig.sortKey]) := by
  intro sig index hty
  obtain ⟨attrs, meta⟩ := index
  obtain ⟨nm, ty, ips⟩ := meta
  obtain ⟨sty, pk, sk⟩ := sig
  simp only at hty
  subst hty
  cases ty with
  | GSI =>
    refine ⟨_, rfl, ?_⟩
    by_cases hks : pk = sk
    · subst hks
      simp [objSet, dedupFirst]
    · have hsk : sk ≠ pk := fun hc => hks hc.symm
      have h1 : objSet [] pk (jsGet attrs pk) = [(pk, jsGet attrs pk)] := by
        simp [objSet]
      have h2 : objSet [(pk, jsGet attrs pk)] sk (jsGet attrs sk)
          = [(pk, jsGet attrs pk), (sk, jsGet attrs sk)] := by
        simp [objSet, hks]
      simp only [h1, h2]
      simp [dedupFirst, hsk]
  | LSI =>
    refine ⟨_, rfl, ?_⟩
    simp [objSet, dedupFirst]

/-- Witness for claim C4: the spec's own example, a GSI with resolved
attributes `GSI1PK`, `GSI1SK` and `extra` normalizes to exactly the keys
`GSI1PK` and `GSI1SK` of the signature. -/
theorem c4_witness :
    ∃ m, normalizeIndex (some sigC4) idxC4 = .ok m ∧
      m.map Prod.fst = (if sigC4.type = IndexType.GSI
        then dedupFirst [sigC4.partitionKey, sigC4.sortKey]
        else [sigC4.sortKey]) :=
  c4_normalized_keys_exact sigC4 idxC4 rfl

/-- Claim C5, counterexample: for a resolved GSI whose table signature is
missing, the normalizer does not pass the index through: it raises a
`TypeError` (the source reads `.type` of the `undefined` signature), so
the no-crash half of the claim is false. -/
theorem c5_counterexample : normalizeIndex none idxC5 = .error .typeError := rfl

/-- Claim C5 (amended): when the table signature exists but its type
differs from the index's declared type, the normalizer passes the index
through unchanged and raises nothing; when the signature is missing, the
normalizer instead throws a `TypeError` while reading its type. -/
theorem c5_amended :
    (∀ (sig : IndexSignature) (index : ResolvedIndex),
      sig.type ≠ index.metadata.type →
      normalizeIndex (some sig) index = .ok (indexAsObj index)) ∧
    (∀ index : ResolvedIndex, normalizeIndex none index = .error .typeError) := by
  constructor
  · intro sig index hne
    obtain ⟨attrs, meta⟩ := index
    obtain ⟨nm, ty, ips⟩ := meta
    simp only at hne
    cases ty with
    | GSI =>
      have hst : sig.type ≠ IndexType.GSI := hne
      simp [normalizeIndex, hst, indexAsObj]
    | LSI =>
      have hst : sig.type ≠ IndexType.LSI := hne
      simp [normalizeIndex, hst, indexAsObj]
  · intro index
    obtain ⟨attrs, meta⟩ := index
    obtain ⟨nm, ty, ips⟩ := meta
    cases ty <;> rfl

/-- Witness for the amended claim C5: an LSI signature against a GSI index
passes the index through unchanged; a missing signature throws. -/
theorem c5_witness :
    normalizeIndex (some sigC5w) idxC5 = .ok (indexAsObj idxC5) ∧
    normalizeIndex none idxC2w = .error .typeError :=
  ⟨c5_amended.1 sigC5w idxC5 (by decide), c5_amended.2 idxC2w⟩

/-- Claim C6, counterexample: the changed attribute `status` matches the
interpolation of `GSI1PK`, whose template also references `region`; since
`region` is not in the changed-attribute bag, the non-sparse re-resolution
throws `MissingAttributeError`, so the calculator does throw. -/
theorem c6_counterexample :
    getAffectedIndexesForAttributes idxsC6 [("status", .str "active")] none
      = .error .missingAttributeError := rfl

/-- Claim C6 (amended): the calculator never throws provided that, for
every considered changed attribute and every index interpolation entry
referencing it, all attributes referenced by the matched index attribute
template are present in the changed-attribute bag; a changed attribute
matching no interpolation simply contributes nothing. When a matched
template references an attribute absent from the bag,
`MissingAttributeError` propagates instead. -/
theorem c6_amended :
    ∀ (indexes : List (String × IndexSchema)) (attributes : JsObj)
      (options : Option String),
    calcNoThrowChecker indexes attributes (options.getD ".") = true →
    ∃ m, getAffectedIndexesForAttributes indexes attributes options = .ok m := by
  intro indexes attributes options hchk
  unfold getAffectedIndexesForAttributes
  apply exceptFoldlM_ok_of_ok
  intro acc attrKey hmem
  have hmem' : attrKey ∈ attributes.map Prod.fst := mem_of_mem_dedupFirst _ _ hmem
  unfold calcNoThrowChecker at hchk
  rw [List.all_eq_true] at hchk
  have hk := hchk attrKey hmem'
  rw [Bool.or_eq_true] at hk
  by_cases hskip : (strIncludes attrKey (options.getD ".")
      || !isScalarType (jsGet attributes attrKey)) = true
  · exact ⟨acc, by rw [if_pos hskip]; rfl⟩
  · rcases hk with hk1 | hk2
    · exact absurd hk1 hskip
    · rw [if_neg hskip]
      apply exceptFoldlM_ok_of_ok
      intro acc2 kv hkv
      rw [List.all_eq_true] at hk2
      have hidx := hk2 kv hkv
      by_cases hemp : kv.2.metadata._interpolations.isEmpty = true
      · exact ⟨acc2, by rw [if_pos hemp]; rfl⟩
      · rw [if_neg hemp]
        apply exceptFoldlM_ok_of_ok
        intro acc3 ip hip
        rw [List.all_eq_true] at hidx
        have hip' := hidx ip hip
        rw [Bool.or_eq_true] at hip'
        by_cases hcont : ip.2.contains attrKey = true
        · rcases hip' with h1 | h2
          · rw [Bool.not_eq_true'] at h1
            rw [h1] at hcont
            exact absurd hcont (by simp)
          · obtain ⟨s, hs⟩ := parseKey_ok_of_refs
              ((kv.2.attributes.lookup ip.1).getD []) attributes h2
            exact ⟨_, by rw [if_pos hcont, hs]; rfl⟩
        · exact ⟨acc3, by rw [if_neg hcont]; rfl⟩

/-- Witness for the amended claim C6: one index whose matched template
references only the changed attribute `status`; the calculator returns
normally. -/
theorem c6_witness :
    calcNoThrowChecker idxsC6w [("status", .str "active")] "." = true ∧
    (∃ m, getAffectedIndexesForAttributes idxsC6w [("status", .str "active")] none
      = .ok m) :=
  ⟨by decide, c6_amended idxsC6w [("status", .str "active")] none (by decide)⟩

/-- Claim C7: when every key of the changed-attribute map contains the
nested-key separator or maps to a non-scalar value, the calculator returns
the empty map: every key is skipped before any index is consulted. -/
theorem c7_only_nested_or_nonscalar_empty :
    ∀ (indexes : List (String × IndexSchema)) (attributes : JsObj)
      (options : Option String),
    allNestedOrNonScalar attributes (options.getD ".") = true →
    getAffectedIndexesForAttributes indexes attributes options = .ok [] := by
  intro indexes attributes options hall
  unfold getAffectedIndexesForAttributes
  apply exceptFoldlM_skip
  intro b attrKey hmem
  have hmem' : attrKey ∈ attributes.map Prod.fst := mem_of_mem_dedupFirst _ _ hmem
  unfold allNestedOrNonScalar at hall
  rw [List.all_eq_true] at hall
  exact if_pos (hall attrKey hmem')

/-- Witness for claim C7: a dotted key and an object-valued key produce
the empty affected-index map. -/
theorem c7_witness :
    allNestedOrNonScalar attrsC7 "." = true ∧
    getAffectedIndexesForAttributes idxsC6 attrsC7 none = .ok [] :=
  ⟨by decide, c7_only_nested_or_nonscalar_empty idxsC6 attrsC7 none (by decide)⟩

/-- Claim C8: `toDynamoEntity` never mutates the caller's entity object:
the auto-generated merge and the result construction only allocate fresh
objects, so the heap cell the caller's reference points at is unchanged by
a successful transform. -/
theorem c8_no_mutation :
    ∀ (meta : EntityMetadata) (ams : List AttrMetadata) (h : Heap) (r : Nat)
      (h2 : Heap) (rr : Nat),
    r < h.length →
    toDynamoEntity meta ams h r = .ok (h2, rr) →
    h2[r]? = h[r]? ∧ heapGet h2 r = heapGet h r := by
  intro meta ams h r h2 rr hlt htd
  obtain ⟨ext, hext⟩ := autoGenFoldPrefix ams h r
  unfold toDynamoEntity at htd
  cases hb : toDynamoEntityBody meta
      (heapGet (autoGenMerge ams h r).1 (autoGenMerge ams h r).2) with
  | error err => rw [hb] at htd; exact absurd htd (by simp)
  | ok result =>
    rw [hb] at htd
    simp only [Except.ok.injEq, Prod.mk.injEq] at htd
    obtain ⟨hh2, _⟩ := htd
    have hlt2 : r < ((h ++ ext)).length := by
      rw [List.length_append]
      exact Nat.lt_of_lt_of_le hlt (Nat.le_add_right _ _)
    have hq : h2[r]? = h[r]? := by
      rw [← hh2, hext, List.getElem?_append_left hlt2,
        List.getElem?_append_left hlt]
    exact ⟨hq, by unfold heapGet; rw [hq]⟩

/-- Witness for claim C8: a transform with one auto-generated attribute
leaves the caller's heap cell 0 untouched. -/
theorem c8_witness :
    hC8out[0]? = hC8[0]? ∧ heapGet hC8out 0 = heapGet hC8 0 :=
  c8_no_mutation mC8 amsC8 hC8 0 hC8out 2 (by decide) rfl

/-- Claim C9: even in a non-sparse context, a leaf whose template resolves
to the empty string (a falsy value) is omitted from the walker's result:
inclusion is decided by truthiness of the resolved value, not only by the
sparse absence signal. -/
theorem c9_falsy_resolution_omitted :
    ∀ (schema : SchemaObj) (e : JsObj) (key : String) (tpl : KeyTemplate)
      (out : ResolvedObj),
    schema.keys.Nodup →
    schema.hasLeaf key tpl = true →
    parseKey tpl e false = .ok (some "") →
    recursiveParseEntity schema e false = .ok out →
    key ∉ out.keys :=
  fun schema e key tpl out hnd hl hp hw =>
    walk_not_mem schema e false out key tpl hnd hl (Or.inr hp) hw

/-- Witness for claim C9: the template `{id}` over an entity whose `id` is
the empty string resolves to the empty string, and the key `K` is dropped
from the non-sparse walk. -/
theorem c9_witness :
    parseKey [.ref "id"] eC9 false = .ok (some "") ∧
    recursiveParseEntity schemaC9 eC9 false = .ok .nil ∧
    "K" ∉ ResolvedObj.nil.keys :=
  ⟨rfl, rfl,
    c9_falsy_resolution_omitted schemaC9 eC9 "K" [.ref "id"] .nil
      (by decide) (by decide) rfl rfl⟩

/-- Claim C10: the result of `getParsedPrimaryKey` does not depend on its
`table` argument: the body never reads it. -/
theorem c10_table_irrelevant :
    ∀ (t1 t2 : TableM) (pk : PrimaryKeySchema) (attrs : JsObj),
    getParsedPrimaryKey t1 pk attrs = getParsedPrimaryKey t2 pk attrs := by
  intro t1 t2 pk attrs
  rfl

